import Mathlib

/-!
Verification development for the deep-search agent loop core
(`run-agent-loop.ts`, `system-context.ts`, `query-rewriter.ts`,
`get-next-action.ts`).  The TypeScript orchestrator is shallowly embedded:
external calls (planner, search, crawl, summarizer, action selector) are
modelled as oracle functions indexed by the call site, and the loop body is
translated statement by statement.
-/

namespace AgentLoop

/-- Result of a JavaScript string truthiness test on an optional string:
`undefined`/`null` and the empty string are falsy. -/
def jsTruthy : Option String → Bool
  | some s => s ≠ ""
  | none => false

/-- Translation of the JavaScript `a || b` idiom on an optional string with a
string default: falsy values (absent or empty) give the default. -/
def jsOrElse (o : Option String) (dflt : String) : String :=
  match o with
  | some s => if s = "" then dflt else s
  | none => dflt

/-- Translation of the JavaScript `a || null` idiom: an empty string is
normalised to `null`. -/
def jsOrNull : Option String → Option String
  | some s => if s = "" then none else some s
  | none => none

/-- Substring test, used to embed JavaScript `String.prototype.includes`. -/
def strContains (s pat : String) : Bool :=
  decide (pat.data <:+: s.data)

/-- One organic result as returned by the Serper search API
(`searchSerper` in `run-agent-loop.ts` / `searchWeb`). -/
structure SerperResult where
  title : String
  link : String
  snippet : String
  date : Option String
deriving Repr, DecidableEq

/-- One search result after the mapping in `searchWeb`
(`run-agent-loop.ts` lines 18-23): `date` is `result.date || null`. -/
structure RawSearchResult where
  title : String
  link : String
  snippet : String
  date : Option String
deriving Repr, DecidableEq

/-- The mapping performed by `searchWeb` on the provider's organic results. -/
def searchWeb (organic : List SerperResult) : List RawSearchResult :=
  organic.map fun r => ⟨r.title, r.link, r.snippet, jsOrNull r.date⟩

/-- One per-URL outcome of `scrapeUrls` (`run-agent-loop.ts` lines 26-48):
`content` is populated exactly when the individual crawl succeeded. -/
structure ScrapeUrlResult where
  url : String
  success : Bool
  content : Option String
deriving Repr, DecidableEq

/-- Shape of the error thrown by a failed `summarizeURL` call, as inspected
by the catch block of `run-agent-loop.ts` lines 162-196: `statusCode`,
`data.error.message`, `message`, and the `toString()` rendering. -/
structure SummarizeError where
  statusCode : Option Nat
  dataErrorMessage : Option String
  message : Option String
  toStr : String
deriving Repr, DecidableEq

/-- The overload detection of `run-agent-loop.ts` lines 166-169: status code
503, or the word "overloaded" in the error body message, the error message,
or the `toString()` rendering. -/
def isOverloadError (e : SummarizeError) : Bool :=
  e.statusCode == some 503
  || (match e.dataErrorMessage with
      | some m => strContains m "overloaded"
      | none => false)
  || (match e.message with
      | some m => strContains m "overloaded"
      | none => false)
  || strContains e.toStr "overloaded"

/-- The `errorMessage` computation of `run-agent-loop.ts` lines 183-186:
a truthy `statusCode` is interpolated, otherwise a generic message is used. -/
def summarizeErrorMessage (e : SummarizeError) : String :=
  match e.statusCode with
  | some n => if n ≠ 0 then "Summarization failed (Error " ++ toString n ++ ")"
              else "Failed to summarize content"
  | none => "Failed to summarize content"

/-- One evidence entry (`SearchResult` in `system-context.ts`). -/
structure SearchResult where
  date : String
  title : String
  url : String
  snippet : String
  scrapedContent : String
deriving Repr, DecidableEq

/-- One evidence group (`SearchHistoryEntry` in `system-context.ts`). -/
structure SearchHistoryEntry where
  query : String
  results : List SearchResult
deriving Repr, DecidableEq

/-- One usage log entry. Modelled from the spec: `usageLog` is an "ordered
sequence of `{source, tokenUsage}`, append-only"; the `reportUsage` method of
the most advanced `SystemContext` variant (called by `query-rewriter.ts`
line 103) is not present under `src/`. -/
structure UsageEntry where
  source : String
  totalTokens : Nat
deriving Repr, DecidableEq

/-- Geographic request hints (`system-context.ts` lines 163-168). -/
structure RequestHints where
  latitude : Option String
  longitude : Option String
  city : Option String
  country : Option String
deriving Repr, DecidableEq

/-- One conversation message; only `role` and `content` are read by the
evidence store. -/
structure ChatMessage where
  role : String
  content : String
deriving Repr, DecidableEq

/-- The evidence store (`SystemContext` in `system-context.ts`, most advanced
variant, lines 144-230). The fields `latestFeedback` and `usageLog` are
modelled from the spec (§3): the variant of `system-context.ts` holding them
is missing under `src/`, while its callers (`run-agent-loop.ts` lines
226-229 and 239, `query-rewriter.ts` lines 97 and 103) are present. -/
structure SystemContext where
  messages : List ChatMessage
  step : Nat
  searchHistory : List SearchHistoryEntry
  latestFeedback : Option String
  requestHints : Option RequestHints
  usageLog : List UsageEntry
deriving Repr, DecidableEq

/-- The `SystemContext` constructor: fresh store with step 0. -/
def mkSystemContext (messages : List ChatMessage)
    (requestHints : Option RequestHints) : SystemContext :=
  { messages := messages
    step := 0
    searchHistory := []
    latestFeedback := none
    requestHints := requestHints
    usageLog := [] }

namespace SystemContext

/-- `shouldStop` (`system-context.ts` lines 180-182). -/
def shouldStop (ctx : SystemContext) : Bool :=
  ctx.step ≥ 10

/-- `incrementStep` (`system-context.ts` lines 184-186). -/
def incrementStep (ctx : SystemContext) : SystemContext :=
  { ctx with step := ctx.step + 1 }

/-- `reportSearch` (`system-context.ts` lines 196-198): push one entry. -/
def reportSearch (ctx : SystemContext) (entry : SearchHistoryEntry) :
    SystemContext :=
  { ctx with searchHistory := ctx.searchHistory ++ [entry] }

/-- Modelled from the spec: `setLatestFeedback` of the most advanced
`SystemContext` variant, missing under `src/`; per §3 `latestFeedback` is an
"optional string, overwritten (not appended) each time". -/
def setLatestFeedback (ctx : SystemContext) (f : String) : SystemContext :=
  { ctx with latestFeedback := some f }

/-- Modelled from the spec: `getLatestFeedback`, the read accessor used by
`query-rewriter.ts` line 97; missing under `src/`. -/
def getLatestFeedback (ctx : SystemContext) : Option String :=
  ctx.latestFeedback

/-- Modelled from the spec: `reportUsage`, append one `{source, tokenUsage}`
record; missing under `src/` but called by `query-rewriter.ts` line 103. -/
def reportUsage (ctx : SystemContext) (source : String) (tokens : Nat) :
    SystemContext :=
  { ctx with usageLog := ctx.usageLog ++ [⟨source, tokens⟩] }

/-- Modelled from the spec: `getTotalUsage`, the cumulative token count read
by `run-agent-loop.ts` lines 239 and 262; missing under `src/`. -/
def getTotalUsage (ctx : SystemContext) : Nat :=
  (ctx.usageLog.map UsageEntry.totalTokens).sum

/-- `getUserQuestion` (`system-context.ts` lines 188-194): content of the
last user message, or the empty string. -/
def getUserQuestion (ctx : SystemContext) : String :=
  match (ctx.messages.filter fun m => m.role == "user").getLast? with
  | some m => m.content
  | none => ""

/-- `getConversationHistory` (`system-context.ts` lines 220-225). -/
def getConversationHistory (ctx : SystemContext) : String :=
  String.intercalate "\n\n"
    (ctx.messages.map fun m =>
      (if m.role == "user" then "User" else "Assistant") ++ ": " ++ m.content)

/-- `getSearchHistory` (`system-context.ts` lines 200-218). -/
def getSearchHistory (ctx : SystemContext) : String :=
  String.intercalate "\n\n"
    (ctx.searchHistory.map fun search =>
      String.intercalate "\n\n"
        (("## Query: \"" ++ search.query ++ "\"")
          :: search.results.map fun result =>
            String.intercalate "\n\n"
              [ "### " ++ result.date ++ " - " ++ result.title
              , result.url
              , result.snippet
              , "<summary>"
              , result.scrapedContent
              , "</summary>" ]))

end SystemContext

/-- The per-result scrape-and-summarize step of `run-agent-loop.ts`
lines 136-208, as a pure function of the crawl outcomes and the summarizer
outcome for this result. `now` stands for `new Date().toISOString()`. -/
def processSearchResult (now : String) (scrapeResults : List ScrapeUrlResult)
    (summ : Except SummarizeError String) (sr : RawSearchResult) :
    SearchResult :=
  let scrapeResult := scrapeResults.find? fun r => r.url == sr.link
  let dateVal := jsOrElse sr.date now
  let successB := match scrapeResult with
    | some r => r.success
    | none => false
  let contentTruthy := match scrapeResult with
    | some r => jsTruthy r.content
    | none => false
  let contentStr := match scrapeResult with
    | some r => (r.content).getD ""
    | none => ""
  if successB && contentTruthy then
    match summ with
    | .ok summary => ⟨dateVal, sr.title, sr.link, sr.snippet, summary⟩
    | .error e =>
      if isOverloadError e && contentTruthy then
        ⟨dateVal, sr.title, sr.link, sr.snippet,
          "Summarizer temporarily overloaded - using full content:\n\n"
            ++ contentStr⟩
      else
        ⟨dateVal, sr.title, sr.link, sr.snippet,
          summarizeErrorMessage e ++ "\n\nSnippet: " ++ sr.snippet⟩
  else
    ⟨dateVal, sr.title, sr.link, sr.snippet,
      (if !successB then "Failed to scrape" else "No content found")
        ++ "\n\nSnippet: " ++ sr.snippet⟩

example :
    (processSearchResult "T" [⟨"u", true, some "body"⟩]
      (.error ⟨some 503, none, none, "e"⟩)
      ⟨"t", "u", "s", none⟩).scrapedContent
    = "Summarizer temporarily overloaded - using full content:\n\nbody" := by
  decide

example :
    (processSearchResult "T" []
      (.ok "x") ⟨"t", "u", "s", none⟩).scrapedContent
    = "Failed to scrape\n\nSnippet: s" := by
  decide

/-- One planned query (`query-rewriter.ts` schema, lines 10-23). -/
structure PlannedQuery where
  query : String
  purpose : String
deriving Repr, DecidableEq

/-- The query rewriter's structured output (`query-rewriter.ts` lines 6-24). -/
structure QueryPlan where
  plan : String
  queries : List PlannedQuery
deriving Repr, DecidableEq

/-- Tag of the Action Selector's decision. Modelled from the spec together
with `ActionOut`: the continue/answer `actionSchema` carrying a `feedback`
field is missing under `src/` (the variant at `get-next-action.ts` lines
159-170 has only `reasoning` and `type`, yet `run-agent-loop.ts` line 227
reads `nextAction.feedback` and the chat UI renders `action.feedback`). -/
inductive ActionType where
  | cont
  | answer
deriving Repr, DecidableEq

/-- Modelled from the spec: the parsed Action Selector output consumed by
`run-agent-loop.ts` lines 224-237 — `reasoning`, a continue/answer tag, and
an optional `feedback` string. -/
structure ActionOut where
  reasoning : String
  type : ActionType
  feedback : Option String
deriving Repr, DecidableEq

/-- One deduplicated source (`SearchSource` in `types/message-annotation.ts`). -/
structure SearchSource where
  title : String
  url : String
  snippet : String
  favicon : Option String
deriving Repr, DecidableEq

/-- The closed set of observations the loop writes through
`writeMessageAnnotation` (`types/message-annotation.ts`). -/
inductive Observation where
  | queryPlanObs (plan : String) (queries : List PlannedQuery)
  | searchSourcesObs (sources : List SearchSource)
  | newActionObs (action : ActionOut)
  | tokenUsageObs (totalTokens : Nat)
deriving Repr, DecidableEq

/-- Oracle environment: the outcome of every external call the loop makes,
indexed by its call site (the step counter value at the iteration, plus the
query and result position where applicable). `parseHost` stands for the
JavaScript `new URL(link).hostname`, returning `none` when the constructor
throws; `now` stands for `new Date().toISOString()`. -/
structure Env where
  planOut : Nat → QueryPlan
  planUsage : Nat → Nat
  searchOut : Nat → Nat → List SerperResult
  scrapeOut : Nat → Nat → List ScrapeUrlResult
  summOut : Nat → Nat → Nat → Except SummarizeError String
  decideOut : Nat → ActionOut
  parseHost : String → Option String
  now : String

/-- The favicon URL built from a hostname (`run-agent-loop.ts` line 99). -/
def mkFaviconUrl (host : String) : String :=
  "https://www.google.com/s2/favicons?domain=" ++ host ++ "&sz=64"

/-- The source pushed for a first-seen URL (`run-agent-loop.ts` lines
96-114): with a favicon when the URL parses, without one when it throws. -/
def mkSource (parseHost : String → Option String) (r : RawSearchResult) :
    SearchSource :=
  match parseHost r.link with
  | some h => ⟨r.title, r.link, r.snippet, some (mkFaviconUrl h)⟩
  | none => ⟨r.title, r.link, r.snippet, none⟩

/-- The deduplication walk of `run-agent-loop.ts` lines 88-117, with the
`seenUrls` set made explicit as a list. -/
def collectSourcesAux (parseHost : String → Option String) :
    List String → List RawSearchResult → List SearchSource
  | _, [] => []
  | seen, r :: rs =>
    if seen.contains r.link then collectSourcesAux parseHost seen rs
    else mkSource parseHost r :: collectSourcesAux parseHost (r.link :: seen) rs

/-- Source collection over the per-query result groups: the two nested `for`
loops of `run-agent-loop.ts` lines 91-117 traverse exactly the concatenation
of the groups' result lists. -/
def collectSources (parseHost : String → Option String)
    (groups : List (String × List RawSearchResult)) : List SearchSource :=
  collectSourcesAux parseHost [] (groups.flatMap Prod.snd)

/-- The per-query summarize fan-out (`run-agent-loop.ts` lines 136-210):
one `processSearchResult` per search result, in result order, `j` being the
position of the result within the query's list. -/
def processResults (now : String) (scrapeResults : List ScrapeUrlResult)
    (summs : Nat → Except SummarizeError String) :
    Nat → List RawSearchResult → List SearchResult
  | _, [] => []
  | j, sr :: rest =>
    processSearchResult now scrapeResults (summs j) sr
      :: processResults now scrapeResults summs (j + 1) rest

/-- The per-iteration search fan-out (`run-agent-loop.ts` lines 78-85):
one `searchWeb` call per planned query, reassembled in query order by the
`Promise.all` join. -/
def gatherSearches (env : Env) (step : Nat) :
    Nat → List PlannedQuery → List (String × List RawSearchResult)
  | _, [] => []
  | i, q :: qs =>
    (q.query, searchWeb (env.searchOut step i)) :: gatherSearches env step (i + 1) qs

/-- The scrape-and-summarize fan-out over the gathered per-query groups
(`run-agent-loop.ts` lines 128-216), reassembled in query order. -/
def processQueries (env : Env) (step : Nat) :
    Nat → List (String × List RawSearchResult) → List SearchHistoryEntry
  | _, [] => []
  | i, (query, searchResults) :: rest =>
    ⟨query, processResults env.now (env.scrapeOut step i) (env.summOut step i)
        0 searchResults⟩
      :: processQueries env step (i + 1) rest

/-- Output of one run of the loop body: the mutated evidence store, the
selected action, and the observations written, in order. -/
structure IterationOut where
  ctx : SystemContext
  action : ActionOut
  observations : List Observation
deriving Repr, DecidableEq

/-- One run of the loop body of `run-agent-loop.ts` lines 67-235 (everything
up to the continue/answer branch): plan, report planner usage, emit the
query-plan observation, search fan-out, source collection and conditional
source observation, scrape-and-summarize fan-out, append each group to the
store, select the action, store truthy feedback, emit the action
observation. -/
def processIteration (env : Env) (ctx : SystemContext) : IterationOut :=
  let step := ctx.step
  let queryPlan := env.planOut step
  let ctx := ctx.reportUsage "query-rewriter" (env.planUsage step)
  let allGoogleSearches := gatherSearches env step 0 queryPlan.queries
  let allSources := collectSources env.parseHost allGoogleSearches
  let allSearchResults := processQueries env step 0 allGoogleSearches
  let ctx := allSearchResults.foldl (fun c e => c.reportSearch e) ctx
  let nextAction := env.decideOut step
  let ctx := if jsTruthy nextAction.feedback
    then ctx.setLatestFeedback (nextAction.feedback.getD "")
    else ctx
  { ctx := ctx
    action := nextAction
    observations :=
      [Observation.queryPlanObs queryPlan.plan queryPlan.queries]
        ++ (if allSources.isEmpty then []
            else [Observation.searchSourcesObs allSources])
        ++ [Observation.newActionObs nextAction] }

/-- One invocation of the Answer Generator: the evidence snapshot it is
given and its `isFinal` mode flag. -/
structure AnswerCall where
  ctx : SystemContext
  isFinal : Bool
deriving Repr, DecidableEq

/-- Result of a full `runAgentLoop` run: every Answer Generator invocation,
every observation written, and the number of loop body runs. -/
structure AgentResult where
  answerCalls : List AnswerCall
  observations : List Observation
  iterations : Nat
deriving Repr, DecidableEq

/-- The token-usage observation written just before answering
(`run-agent-loop.ts` lines 238-245 and 261-268): emitted only when the
cumulative usage is positive. -/
def usageObs (ctx : SystemContext) : List Observation :=
  if ctx.getTotalUsage > 0 then [Observation.tokenUsageObs ctx.getTotalUsage]
  else []

/-- The forced exit after the `while` loop (`run-agent-loop.ts` lines
258-274): one Answer Generator call with `isFinal = true`. -/
def finalAnswer (ctx : SystemContext) : AgentResult :=
  { answerCalls := [⟨ctx, true⟩], observations := usageObs ctx, iterations := 0 }

/-- The `while (!ctx.shouldStop())` loop of `run-agent-loop.ts` lines
66-256, driven by fuel. The loop is entered with `fuel = 10 - step`, an
invariant every recursive call preserves, so the `0` case fires exactly when
`shouldStop` holds and both cases of exhausted fuel coincide with the
source's loop exit. -/
def loopAux (env : Env) : Nat → SystemContext → AgentResult
  | 0, ctx => finalAnswer ctx
  | fuel + 1, ctx =>
    if ctx.shouldStop then finalAnswer ctx
    else
      let it := processIteration env ctx
      match it.action.type with
      | .answer =>
        { answerCalls := [⟨it.ctx, false⟩]
          observations := it.observations ++ usageObs it.ctx
          iterations := 1 }
      | .cont =>
        let rest := loopAux env fuel it.ctx.incrementStep
        { answerCalls := rest.answerCalls
          observations := it.observations ++ rest.observations
          iterations := rest.iterations + 1 }

/-- `runAgentLoop` (`run-agent-loop.ts` lines 50-275): build a fresh
evidence store (step 0) and run the bounded loop. -/
def runAgentLoop (env : Env) (messages : List ChatMessage)
    (requestHints : Option RequestHints) : AgentResult :=
  loopAux env 10 (mkSystemContext messages requestHints)

/-- The evaluator-feedback section of the query rewriter's prompt
(`query-rewriter.ts` line 97): a truthy stored feedback is interpolated
after an introductory sentence, otherwise a placeholder is used. -/
def feedbackSection (ctx : SystemContext) : String :=
  if jsTruthy ctx.getLatestFeedback then
    "The evaluator provided this feedback on what information is missing or needs improvement:\n\n"
      ++ ctx.getLatestFeedback.getD ""
  else "No previous feedback available."

/-- The user prompt built by `queryRewriter` (`query-rewriter.ts` lines
87-99) from the evidence snapshot. -/
def queryRewriterPrompt (ctx : SystemContext) : String :=
  "=== PREVIOUS CONVERSATION (for context only) ===\n"
    ++ ctx.getConversationHistory
    ++ "\n\n=== CURRENT QUESTION TO ANSWER ===\n\""
    ++ ctx.getUserQuestion
    ++ "\"\n\n=== PREVIOUS SEARCH RESULTS (if any) ===\n"
    ++ jsOrElse (some ctx.getSearchHistory) "No searches performed yet"
    ++ "\n\n=== EVALUATOR FEEDBACK (if any) ===\n"
    ++ feedbackSection ctx
    ++ "\n\nCreate a strategic research plan and generate search queries to gather comprehensive information to answer this question. If evaluator feedback is provided, prioritize addressing those specific gaps and recommendations."

/-- A raw value checked against the Action Selector's output schema:
an optional `reasoning` string, a `type` discriminator string, an optional
`feedback` string. -/
structure RawActionValue where
  reasoning : Option String
  typeStr : String
  feedback : Option String
deriving Repr, DecidableEq

/-- Modelled from the spec: the continue/answer `actionSchema` with a
`feedback` field that is "required when continuing (must describe concretely
what is missing and why), optional when answering" (§4.5). The schema
variant present under `src/` (`get-next-action.ts` lines 159-170) carries
only `reasoning` and `type`, yet its callers in `run-agent-loop.ts` line 227
and the chat UI read `action.feedback`, so the feedback-carrying variant is
repository code missing from `src/`. -/
def actionSchemaAdmits (v : RawActionValue) : Bool :=
  v.reasoning.isSome
    && (v.typeStr == "continue" || v.typeStr == "answer")
    && (!(v.typeStr == "continue") || v.feedback.isSome)

/-- Metadata triple of an evidence entry, used to state correspondence with
the provider's results. -/
def entryMeta (r : SearchResult) : String × String × String :=
  (r.title, r.url, r.snippet)

/-- Metadata triple of a provider result. -/
def serperMeta (r : SerperResult) : String × String × String :=
  (r.title, r.link, r.snippet)

/-- Metadata triple of a mapped search result. -/
def rawMeta (r : RawSearchResult) : String × String × String :=
  (r.title, r.link, r.snippet)

/-- A `Continue` decision carrying no feedback. -/
def contAction : ActionOut :=
  ⟨"need more evidence", ActionType.cont, none⟩

/-- An `Answer` decision carrying no feedback. -/
def answerAction : ActionOut :=
  ⟨"evidence sufficient", ActionType.answer, none⟩

/-- A minimal oracle environment that always decides `Continue`: empty query
plans, no search results, no usage. -/
def envAllCont : Env :=
  { planOut := fun _ => ⟨"plan", []⟩
    planUsage := fun _ => 0
    searchOut := fun _ _ => []
    scrapeOut := fun _ _ => []
    summOut := fun _ _ _ => Except.ok "summary"
    decideOut := fun _ => contAction
    parseHost := fun _ => none
    now := "2025-01-01T00:00:00.000Z" }

/-- A minimal oracle environment that decides `Answer` immediately. -/
def envAnswerNow : Env :=
  { envAllCont with decideOut := fun _ => answerAction }

/-- An oracle environment with one query and one result whose crawl succeeds
and whose summarization succeeds with the empty string. -/
def envEmptySummary : Env :=
  { envAllCont with
    planOut := fun _ => ⟨"plan", [⟨"q", "p"⟩]⟩
    searchOut := fun _ _ => [⟨"t", "u", "s", none⟩]
    scrapeOut := fun _ _ => [⟨"u", true, some "body"⟩]
    summOut := fun _ _ _ => Except.ok ""
    decideOut := fun _ => answerAction }

/-- An oracle environment whose decision at every step is `Continue` with a
fixed feedback string. -/
def envFeedbackF : Env :=
  { envAllCont with
    decideOut := fun _ => ⟨"gaps remain", ActionType.cont, some "need 2025 pricing data"⟩ }

/-- The empty evidence store used by the concrete witnesses. -/
def ctx0 : SystemContext := mkSystemContext [] none

/-- Folding `reportSearch` over a list appends the list to the search
history and changes nothing else. -/
theorem foldl_reportSearch_eq (l : List SearchHistoryEntry) :
    ∀ ctx : SystemContext,
      l.foldl (fun c e => c.reportSearch e) ctx
        = { ctx with searchHistory := ctx.searchHistory ++ l } := by
  induction l with
  | nil => intro ctx; simp
  | cons e l ih =>
    intro ctx
    rw [List.foldl_cons, ih]
    simp [SystemContext.reportSearch]

/-- The evidence store returned by one loop body run, by field:
the step, messages and request hints are untouched, the processed per-query
groups are appended to the search history, the planner usage is appended to
the usage log, and the feedback is overwritten exactly when the decision
carries a truthy feedback string. -/
theorem processIteration_ctx_eq (env : Env) (ctx : SystemContext) :
    (processIteration env ctx).ctx
      = { messages := ctx.messages
          step := ctx.step
          searchHistory := ctx.searchHistory
            ++ processQueries env ctx.step 0
                (gatherSearches env ctx.step 0 (env.planOut ctx.step).queries)
          latestFeedback :=
            if jsTruthy (env.decideOut ctx.step).feedback
            then some ((env.decideOut ctx.step).feedback.getD "")
            else ctx.latestFeedback
          requestHints := ctx.requestHints
          usageLog := ctx.usageLog
            ++ [⟨"query-rewriter", env.planUsage ctx.step⟩] } := by
  unfold processIteration
  dsimp only
  rw [foldl_reportSearch_eq]
  split <;> simp [SystemContext.setLatestFeedback, SystemContext.reportUsage]

/-- The loop body does not change the step counter. -/
theorem processIteration_step (env : Env) (ctx : SystemContext) :
    (processIteration env ctx).ctx.step = ctx.step := by
  rw [processIteration_ctx_eq]

/-- The action returned by one loop body run is the decision oracle's value
at the current step. -/
theorem processIteration_action (env : Env) (ctx : SystemContext) :
    (processIteration env ctx).action = env.decideOut ctx.step := rfl

/-- Core loop invariant, by induction on the fuel: entered with
`step + fuel = 10`, the loop makes exactly one Answer Generator call, that
call is final exactly when every remaining decision is `Continue`, the loop
body runs at most `fuel` more times, and when every remaining decision is
`Continue` it runs exactly `fuel` more times and the forced final call sees
a step counter of 10. -/
theorem loopAux_spec (env : Env) :
    ∀ (fuel : Nat) (ctx : SystemContext), ctx.step + fuel = 10 →
      (loopAux env fuel ctx).answerCalls.length = 1
      ∧ ((loopAux env fuel ctx).answerCalls.map AnswerCall.isFinal = [true]
          ↔ ∀ k, ctx.step ≤ k → k < 10 →
              (env.decideOut k).type ≠ ActionType.answer)
      ∧ (loopAux env fuel ctx).iterations ≤ fuel
      ∧ ((∀ k, ctx.step ≤ k → k < 10 →
            (env.decideOut k).type ≠ ActionType.answer) →
          (loopAux env fuel ctx).iterations = fuel
          ∧ ∀ c ∈ (loopAux env fuel ctx).answerCalls,
              c.ctx.step = 10 ∧ c.isFinal = true) := by
  intro fuel
  induction fuel with
  | zero =>
    intro ctx hstep
    have hstep10 : ctx.step = 10 := by omega
    refine ⟨rfl, ?_, Nat.le_refl 0, ?_⟩
    · constructor
      · intro _ k hk1 hk2
        exfalso
        omega
      · intro _
        rfl
    · intro _
      refine ⟨rfl, ?_⟩
      intro c hc
      have hc2 : c = ⟨ctx, true⟩ := by
        simpa [loopAux, finalAnswer] using hc
      subst hc2
      exact ⟨hstep10, rfl⟩
  | succ fuel ih =>
    intro ctx hstep
    have hlt : ctx.step < 10 := by omega
    have hss : ctx.shouldStop = false := by
      simp [SystemContext.shouldStop]
      omega
    simp only [loopAux, hss, Bool.false_eq_true, if_false]
    have hact := processIteration_action env ctx
    have hstep2 : ((processIteration env ctx).ctx.incrementStep).step
        = ctx.step + 1 := by
      simp [SystemContext.incrementStep, processIteration_step]
    cases hA : (env.decideOut ctx.step).type with
    | answer =>
      simp only [hact, hA]
      refine ⟨rfl, ?_, by simp, ?_⟩
      · simp only [List.map_cons, List.map_nil]
        constructor
        · intro hfalse
          cases hfalse
        · intro hall
          exact absurd hA (hall ctx.step (Nat.le_refl _) hlt)
      · intro hall
        exact absurd hA (hall ctx.step (Nat.le_refl _) hlt)
    | cont =>
      simp only [hact, hA]
      have hinv : ((processIteration env ctx).ctx.incrementStep).step + fuel
          = 10 := by omega
      obtain ⟨ihl, ihfin, ihit, ihforce⟩ :=
        ih ((processIteration env ctx).ctx.incrementStep) hinv
      rw [hstep2] at ihfin ihforce
      have hshift : (∀ k, ctx.step + 1 ≤ k → k < 10 →
            (env.decideOut k).type ≠ ActionType.answer)
          ↔ (∀ k, ctx.step ≤ k → k < 10 →
            (env.decideOut k).type ≠ ActionType.answer) := by
        constructor
        · intro h k hk1 hk2
          rcases Nat.eq_or_lt_of_le hk1 with heq | hlt2
          · rw [← heq, hA]
            intro hcontra
            cases hcontra
          · exact h k hlt2 hk2
        · intro h k hk1 hk2
          exact h k (by omega) hk2
      refine ⟨ihl, ?_, by simpa using Nat.add_le_add_right ihit 1, ?_⟩
      · simpa [hshift] using ihfin
      · intro hall
        obtain ⟨hit, hcalls⟩ := ihforce (hshift.mpr hall)
        exact ⟨by simpa using hit, hcalls⟩

/-- C1: the agent loop performs at most 10 planning iterations. Starting
from step 0, `shouldStop` tests `step >= 10` before each iteration and the
step counter is incremented once per `Continue` iteration, so for any
sequence of `Continue` decisions the loop body runs at most 10 times, and
when the Action Selector never returns `Answer` the forced final answer
occurs after exactly 10 increments of the step counter. -/
theorem agent_loop_step_budget (env : Env) (messages : List ChatMessage)
    (hints : Option RequestHints) :
    (∀ c : SystemContext, c.shouldStop = true ↔ 10 ≤ c.step)
    ∧ (runAgentLoop env messages hints).iterations ≤ 10
    ∧ ((∀ k, k < 10 → (env.decideOut k).type ≠ ActionType.answer) →
        (runAgentLoop env messages hints).iterations = 10
        ∧ ∀ c ∈ (runAgentLoop env messages hints).answerCalls,
            c.ctx.step = 10 ∧ c.isFinal = true) := by
  obtain ⟨-, -, hle, hforce⟩ :=
    loopAux_spec env 10 (mkSystemContext messages hints) (by rfl)
  refine ⟨?_, hle, ?_⟩
  · intro c
    simp [SystemContext.shouldStop]
  · intro hall
    exact hforce fun k _ hk => hall k hk

/-- Witness for C1 at a concrete environment in which every decision is
`Continue`: the loop body runs exactly 10 times and the single Answer
Generator call is final with the step counter at 10. -/
theorem agent_loop_step_budget_witness :
    (runAgentLoop envAllCont [] none).iterations = 10
    ∧ ∀ c ∈ (runAgentLoop envAllCont [] none).answerCalls,
        c.ctx.step = 10 ∧ c.isFinal = true :=
  (agent_loop_step_budget envAllCont [] none).2.2
    (fun k _ => by simp [envAllCont, contAction])

/-- C2: every non-aborting execution of `runAgentLoop` invokes the Answer
Generator exactly once — with `isFinal = false` when the Action Selector
returns an `Answer` action inside the loop, and with `isFinal = true`
exactly when the step budget is exhausted without an `Answer` action. -/
theorem answer_generator_called_once (env : Env) (messages : List ChatMessage)
    (hints : Option RequestHints) :
    (runAgentLoop env messages hints).answerCalls.length = 1
    ∧ ((runAgentLoop env messages hints).answerCalls.map AnswerCall.isFinal
          = [true]
        ↔ ∀ k, k < 10 → (env.decideOut k).type ≠ ActionType.answer)
    ∧ ((runAgentLoop env messages hints).answerCalls.map AnswerCall.isFinal
          = [false]
        ↔ ∃ k, k < 10 ∧ (env.decideOut k).type = ActionType.answer) := by
  obtain ⟨hlen, hfin, -, -⟩ :=
    loopAux_spec env 10 (mkSystemContext messages hints) (by rfl)
  have hzero : (∀ k, (mkSystemContext messages hints).step ≤ k → k < 10 →
        (env.decideOut k).type ≠ ActionType.answer)
      ↔ (∀ k, k < 10 → (env.decideOut k).type ≠ ActionType.answer) := by
    constructor
    · intro h k hk
      exact h k (Nat.zero_le k) hk
    · intro h k _ hk
      exact h k hk
  rw [hzero] at hfin
  refine ⟨hlen, hfin, ?_⟩
  simp only [runAgentLoop]
  cases hcalls : (loopAux env 10 (mkSystemContext messages hints)).answerCalls with
  | nil => rw [hcalls] at hlen; cases hlen
  | cons c t =>
    cases t with
    | cons d u => rw [hcalls] at hlen; simp at hlen
    | nil =>
      rw [hcalls] at hfin
      simp only [List.map_cons, List.map_nil] at hfin ⊢
      cases hb : c.isFinal with
      | true =>
        simp only [hb] at hfin ⊢
        constructor
        · intro habs
          cases habs
        · intro ⟨k, hk, ha⟩
          exact absurd ha (hfin.mp trivial k hk)
      | false =>
        simp only [hb] at hfin ⊢
        constructor
        · intro _
          by_contra hno
          push_neg at hno
          have : ([false] : List Bool) = [true] :=
            hfin.mpr fun k hk => hno k hk
          cases this
        · intro _
          trivial

/-- Witness for C2 at a concrete environment that decides `Answer` at step
0: the single Answer Generator call has `isFinal = false`. -/
theorem answer_generator_called_once_witness :
    (runAgentLoop envAnswerNow [] none).answerCalls.map AnswerCall.isFinal
      = [false] :=
  (answer_generator_called_once envAnswerNow [] none).2.2.mpr
    ⟨0, by decide, by decide⟩

/-- A string append with a non-empty left part is non-empty. -/
theorem strAppend_ne_empty (a b : String) (ha : a ≠ "") : (a ++ b) ≠ "" := by
  intro h
  apply ha
  have hd := congrArg String.data h
  rw [String.data_append] at hd
  have hnil : a.data = [] := (List.append_eq_nil.mp hd).1
  cases a with
  | mk d => cases hnil; rfl

/-- A string contains any middle part of an append. -/
theorem strContains_middle (a p b : String) :
    strContains (a ++ (p ++ b)) p = true := by
  apply decide_eq_true
  exact ⟨a.data, b.data, by simp [String.data_append]⟩

/-- The `errorMessage` substituted on a non-overload failure is never the
empty string. -/
theorem summarizeErrorMessage_ne_empty (e : SummarizeError) :
    summarizeErrorMessage e ≠ "" := by
  unfold summarizeErrorMessage
  cases e.statusCode with
  | none => decide
  | some n =>
    dsimp only
    by_cases hn : n ≠ 0
    · rw [if_pos hn]
      apply strAppend_ne_empty
      apply strAppend_ne_empty
      decide
    · rw [if_neg hn]
      decide

/-- C4: the per-result fallback chain is deterministic in the failure
class. When the crawl succeeded with content and the summarizer failed with
an overloaded signal (status 503 or "overloaded" in the error body message,
error message, or rendering), `scrapedContent` is the raw scraped text
behind a note; when the summarizer failed for any other reason it is the
original snippet behind an explanatory note; when the crawl of the URL
failed it carries a "Failed to scrape" marker plus the snippet; no failure
case yields the empty string, and the per-result step is a total function,
so no summarizer error propagates past the loop. -/
theorem fallback_chain_deterministic (now : String)
    (scrapes : List ScrapeUrlResult) (sr : RawSearchResult)
    (r : ScrapeUrlResult) (e : SummarizeError)
    (hfind : scrapes.find? (fun x => x.url == sr.link) = some r) :
    (isOverloadError e = true ↔
      (e.statusCode = some 503
        ∨ (∃ m, e.dataErrorMessage = some m ∧ strContains m "overloaded" = true)
        ∨ (∃ m, e.message = some m ∧ strContains m "overloaded" = true)
        ∨ strContains e.toStr "overloaded" = true))
    ∧ (r.success = true → jsTruthy r.content = true → isOverloadError e = true →
        (processSearchResult now scrapes (Except.error e) sr).scrapedContent
          = "Summarizer temporarily overloaded - using full content:\n\n"
              ++ r.content.getD ""
          ∧ (processSearchResult now scrapes (Except.error e) sr).scrapedContent
              ≠ "")
    ∧ (r.success = true → jsTruthy r.content = true → isOverloadError e = false →
        (processSearchResult now scrapes (Except.error e) sr).scrapedContent
          = summarizeErrorMessage e ++ "\n\nSnippet: " ++ sr.snippet
          ∧ (processSearchResult now scrapes (Except.error e) sr).scrapedContent
              ≠ "")
    ∧ (∀ summ, r.success = false →
        (processSearchResult now scrapes summ sr).scrapedContent
          = "Failed to scrape" ++ "\n\nSnippet: " ++ sr.snippet
          ∧ (processSearchResult now scrapes summ sr).scrapedContent ≠ "")
    ∧ (∀ (scrapes' : List ScrapeUrlResult) summ,
        scrapes'.find? (fun x => x.url == sr.link) = none →
        (processSearchResult now scrapes' summ sr).scrapedContent
          = "Failed to scrape" ++ "\n\nSnippet: " ++ sr.snippet)
    ∧ (∀ (scrapes' : List ScrapeUrlResult) (e' : SummarizeError),
        (processSearchResult now scrapes' (Except.error e') sr).scrapedContent
          ≠ "") := by
  constructor
  · unfold isOverloadError
    constructor
    · intro h
      rcases Bool.or_eq_true_iff.mp h with h' | h4
      · rcases Bool.or_eq_true_iff.mp h' with h'' | h3
        · rcases Bool.or_eq_true_iff.mp h'' with h1 | h2
          · left
            simpa using h1
          · right; left
            cases hm : e.dataErrorMessage with
            | none => rw [hm] at h2; cases h2
            | some m => rw [hm] at h2; exact ⟨m, rfl, h2⟩
        · right; right; left
          cases hm : e.message with
          | none => rw [hm] at h3; cases h3
          | some m => rw [hm] at h3; exact ⟨m, rfl, h3⟩
      · right; right; right
        exact h4
    · intro h
      rcases h with h1 | ⟨m, hm, hc⟩ | ⟨m, hm, hc⟩ | h4
      · simp [h1]
      · rw [hm]
        simp [hc]
      · rw [hm]
        simp [hc]
      · simp [h4]
  · refine ⟨?_, ?_, ?_, ?_, ?_⟩
    · intro hsuc hcont hover
      have heq : (processSearchResult now scrapes (Except.error e) sr).scrapedContent
          = "Summarizer temporarily overloaded - using full content:\n\n"
              ++ r.content.getD "" := by
        unfold processSearchResult
        simp only [hfind, hsuc, hcont, hover, Bool.and_self, if_true]
      refine ⟨heq, ?_⟩
      rw [heq]
      exact strAppend_ne_empty _ _ (by decide)
    · intro hsuc hcont hover
      have heq : (processSearchResult now scrapes (Except.error e) sr).scrapedContent
          = summarizeErrorMessage e ++ "\n\nSnippet: " ++ sr.snippet := by
        unfold processSearchResult
        simp only [hfind, hsuc, hcont, hover, Bool.true_and, Bool.and_true,
          Bool.false_and, if_true, if_false]
        simp
      refine ⟨heq, ?_⟩
      rw [heq]
      exact strAppend_ne_empty _ _
        (strAppend_ne_empty _ _ (summarizeErrorMessage_ne_empty e))
    · intro summ hfail
      have heq : (processSearchResult now scrapes summ sr).scrapedContent
          = "Failed to scrape" ++ "\n\nSnippet: " ++ sr.snippet := by
        unfold processSearchResult
        simp only [hfind, hfail, Bool.false_and, if_false, Bool.not_false]
        rfl
      refine ⟨heq, ?_⟩
      rw [heq]
      exact strAppend_ne_empty _ _ (strAppend_ne_empty _ _ (by decide))
    · intro scrapes' summ hnone
      unfold processSearchResult
      simp only [hnone, Bool.false_and, if_false, Bool.not_false]
      rfl
    · intro scrapes' e'
      unfold processSearchResult
      cases hfind' : scrapes'.find? (fun x => x.url == sr.link) with
      | none =>
        simp only [hfind', Bool.false_and, if_false, Bool.not_false]
        exact strAppend_ne_empty _ _ (strAppend_ne_empty _ _ (by decide))
      | some r' =>
        simp only [hfind']
        by_cases hb : (r'.success && jsTruthy r'.content) = true
        · simp only [hb, if_true]
          by_cases ho : (isOverloadError e' && jsTruthy r'.content) = true
          · simp only [ho, if_true]
            exact strAppend_ne_empty _ _ (by decide)
          · simp only [ho, if_false]
            exact strAppend_ne_empty _ _
              (strAppend_ne_empty _ _ (summarizeErrorMessage_ne_empty e'))
        · simp only [hb, if_false]
          apply strAppend_ne_empty
          apply strAppend_ne_empty
          split <;> decide

/-- Witness for C4 at concrete inputs: an overloaded failure (status 503)
with scraped content "body" yields the raw content behind the overload note,
and a crawl failure yields the "Failed to scrape" marker plus the snippet. -/
theorem fallback_chain_deterministic_witness :
    (([⟨"u", true, some "body"⟩] : List ScrapeUrlResult).find?
        (fun x => x.url == "u") = some ⟨"u", true, some "body"⟩)
    ∧ (processSearchResult "T" [⟨"u", true, some "body"⟩]
          (Except.error ⟨some 503, none, none, "x"⟩)
          ⟨"t", "u", "s", none⟩).scrapedContent
        = "Summarizer temporarily overloaded - using full content:\n\n"
            ++ (some "body").getD ""
    ∧ (processSearchResult "T" [⟨"u", false, none⟩]
          (Except.ok "irrelevant") ⟨"t", "u", "s", none⟩).scrapedContent
        = "Failed to scrape" ++ "\n\nSnippet: " ++ "s" :=
  ⟨by decide,
    ((fallback_chain_deterministic "T" [⟨"u", true, some "body"⟩]
        ⟨"t", "u", "s", none⟩ ⟨"u", true, some "body"⟩
        ⟨some 503, none, none, "x"⟩ (by decide)).2.1
      (by decide) (by decide) (by decide)).1,
    ((fallback_chain_deterministic "T" [⟨"u", false, none⟩]
        ⟨"t", "u", "s", none⟩ ⟨"u", false, none⟩
        ⟨some 503, none, none, "x"⟩ (by decide)).2.2.2.1
      (Except.ok "irrelevant") (by decide)).1⟩

/-- Every branch of the per-result step keeps the search metadata: the
produced entry carries the result's title, link and snippet. -/
theorem processSearchResult_meta (now : String) (scr : List ScrapeUrlResult)
    (summ : Except SummarizeError String) (sr : RawSearchResult) :
    entryMeta (processSearchResult now scr summ sr) = rawMeta sr := by
  unfold processSearchResult entryMeta rawMeta
  dsimp only
  repeat' split
  all_goals rfl

/-- When every successful summary is non-empty, the produced entry's
`scrapedContent` is non-empty: all fallback strings carry a non-empty
prefix note. -/
theorem processSearchResult_ne_empty (now : String) (scr : List ScrapeUrlResult)
    (summ : Except SummarizeError String) (sr : RawSearchResult)
    (h : ∀ s, summ = Except.ok s → s ≠ "") :
    (processSearchResult now scr summ sr).scrapedContent ≠ "" := by
  unfold processSearchResult
  dsimp only
  repeat' split
  all_goals first
    | exact strAppend_ne_empty _ _ (by decide)
    | exact strAppend_ne_empty _ _
        (strAppend_ne_empty _ _ (summarizeErrorMessage_ne_empty _))
    | (apply h; rfl)

/-- The per-query fan-out produces one entry per search result, in order,
with the same metadata triples. -/
theorem processResults_meta (now : String) (scr : List ScrapeUrlResult)
    (summs : Nat → Except SummarizeError String) :
    ∀ (j : Nat) (rs : List RawSearchResult),
      (processResults now scr summs j rs).map entryMeta = rs.map rawMeta := by
  intro j rs
  induction rs generalizing j with
  | nil => rfl
  | cons sr rest ih =>
    simp only [processResults, List.map_cons, processSearchResult_meta, ih]

/-- Every entry produced by the per-query fan-out has non-empty
`scrapedContent`, provided every successful summary for the query is
non-empty. -/
theorem processResults_ne_empty (now : String) (scr : List ScrapeUrlResult)
    (summs : Nat → Except SummarizeError String)
    (h : ∀ j s, summs j = Except.ok s → s ≠ "") :
    ∀ (j : Nat) (rs : List RawSearchResult),
      ∀ r ∈ processResults now scr summs j rs, r.scrapedContent ≠ "" := by
  intro j rs
  induction rs generalizing j with
  | nil => intro r hr; cases hr
  | cons sr rest ih =>
    intro r hr
    rcases List.mem_cons.mp hr with hr | hr
    · subst hr
      exact processSearchResult_ne_empty now scr (summs j) sr (h j)
    · exact ih (j + 1) r hr

/-- The scrape-and-summarize fan-out over the gathered groups, described
group by group: the group for the `t`-th planned query carries that query
string and the metadata triples of that query's mapped search results,
in order. -/
theorem processQueries_gather_meta (env : Env) (step : Nat) :
    ∀ (i0 : Nat) (qs : List PlannedQuery),
      (processQueries env step i0 (gatherSearches env step i0 qs)).map
          (fun g => (g.query, g.results.map entryMeta))
        = (qs.zip (List.range' i0 qs.length)).map
            (fun p => (p.1.query, (searchWeb (env.searchOut step p.2)).map rawMeta)) := by
  intro i0 qs
  induction qs generalizing i0 with
  | nil => rfl
  | cons q rest ih =>
    simp only [gatherSearches, processQueries, List.length_cons, List.range',
      List.zip_cons_cons, List.map_cons, processResults_meta]
    rw [ih (i0 + 1)]

/-- The `searchWeb` mapping preserves the provider's title, link and
snippet, in order. -/
theorem searchWeb_meta (organic : List SerperResult) :
    (searchWeb organic).map rawMeta = organic.map serperMeta := by
  unfold searchWeb
  rw [List.map_map]
  rfl

/-- The search fan-out returns one group per planned query. -/
theorem gatherSearches_length (env : Env) (step : Nat) :
    ∀ (i0 : Nat) (qs : List PlannedQuery),
      (gatherSearches env step i0 qs).length = qs.length := by
  intro i0 qs
  induction qs generalizing i0 with
  | nil => rfl
  | cons q rest ih => simp [gatherSearches, ih]

/-- The scrape-and-summarize fan-out returns one evidence group per input
group. -/
theorem processQueries_length (env : Env) (step : Nat) :
    ∀ (i0 : Nat) (gs : List (String × List RawSearchResult)),
      (processQueries env step i0 gs).length = gs.length := by
  intro i0 gs
  induction gs generalizing i0 with
  | nil => rfl
  | cons p rest ih => simp [processQueries, ih]

/-- Every entry produced by the scrape-and-summarize fan-out has non-empty
`scrapedContent`, provided every successful summary of the iteration is
non-empty. -/
theorem processQueries_ne_empty (env : Env) (step : Nat)
    (h : ∀ i j s, env.summOut step i j = Except.ok s → s ≠ "") :
    ∀ (i0 : Nat) (gs : List (String × List RawSearchResult)),
      ∀ g ∈ processQueries env step i0 gs, ∀ r ∈ g.results,
        r.scrapedContent ≠ "" := by
  intro i0 gs
  induction gs generalizing i0 with
  | nil => intro g hg; cases hg
  | cons p rest ih =>
    intro g hg r hr
    rcases List.mem_cons.mp hg with hg | hg
    · subst hg
      exact processResults_ne_empty env.now (env.scrapeOut step i0)
        (env.summOut step i0) (h i0) 0 p.2 r hr
    · exact ih (i0 + 1) g hg r hr

/-- Counterexample to C3 as stated: in a concrete iteration whose single
crawl succeeds with content and whose summarization succeeds returning the
empty string, the evidence store's unique corresponding entry has
`scrapedContent = ""` — the non-emptiness does not hold regardless of
crawl/summarize outcomes, because a successful summarization's text is
stored verbatim. -/
theorem evidence_nonempty_counterexample :
    ((processIteration envEmptySummary ctx0).ctx.searchHistory.map
        (fun g => g.results.map SearchResult.scrapedContent))
      = [[""]] := by decide

/-- C3 amended: for every search result returned by the Search Provider
within one iteration, the evidence store afterwards contains exactly one
corresponding entry (same title, url, snippet, in order, under its query);
its `scrapedContent` is non-empty whenever every successful summarization of
the iteration returns non-empty text — in particular in every crawl or
summarize failure case, where a non-empty fallback string is substituted.
(As stated the claim fails only when a successful summarization returns the
empty string, which is then stored verbatim.) -/
theorem evidence_correspondence_amended (env : Env) (ctx : SystemContext)
    (hne : ∀ i j s, env.summOut ctx.step i j = Except.ok s → s ≠ "") :
    (processIteration env ctx).ctx.searchHistory.take ctx.searchHistory.length
        = ctx.searchHistory
    ∧ ((processIteration env ctx).ctx.searchHistory.drop
          ctx.searchHistory.length).map
          (fun g => (g.query, g.results.map entryMeta))
        = ((env.planOut ctx.step).queries.zip
            (List.range' 0 (env.planOut ctx.step).queries.length)).map
            (fun p => (p.1.query,
              (searchWeb (env.searchOut ctx.step p.2)).map rawMeta))
    ∧ ∀ g ∈ (processIteration env ctx).ctx.searchHistory.drop
          ctx.searchHistory.length,
        ∀ r ∈ g.results, r.scrapedContent ≠ "" := by
  have hctx := processIteration_ctx_eq env ctx
  have hsh : (processIteration env ctx).ctx.searchHistory
      = ctx.searchHistory
        ++ processQueries env ctx.step 0
            (gatherSearches env ctx.step 0 (env.planOut ctx.step).queries) := by
    rw [hctx]
  refine ⟨?_, ?_, ?_⟩
  · rw [hsh, List.take_left]
  · rw [hsh, List.drop_left]
    exact processQueries_gather_meta env ctx.step 0 (env.planOut ctx.step).queries
  · rw [hsh, List.drop_left]
    exact processQueries_ne_empty env ctx.step hne 0 _

/-- Witness for the amended C3 at a concrete iteration with one query and
one crawl-failed result: the unique corresponding entry keeps the metadata
and carries a non-empty fallback string. -/
theorem evidence_correspondence_amended_witness :
    (∀ i j s, (envAnswerNow.summOut (ctx0.step) i j) = Except.ok s → s ≠ "")
    ∧ ((processIteration envAnswerNow ctx0).ctx.searchHistory.drop
          ctx0.searchHistory.length).map
          (fun g => (g.query, g.results.map entryMeta))
        = (((envAnswerNow.planOut ctx0.step).queries.zip
            (List.range' 0 (envAnswerNow.planOut ctx0.step).queries.length)).map
            (fun p => (p.1.query,
              (searchWeb (envAnswerNow.searchOut ctx0.step p.2)).map rawMeta))) :=
  ⟨by intro i j s hs; cases hs; decide,
    (evidence_correspondence_amended envAnswerNow ctx0
      (by intro i j s hs; cases hs; decide)).2.1⟩

/-- The search history after one loop body run is the previous history with
the iteration's processed groups appended. -/
theorem processIteration_searchHistory (env : Env) (ctx : SystemContext) :
    (processIteration env ctx).ctx.searchHistory
      = ctx.searchHistory
        ++ processQueries env ctx.step 0
            (gatherSearches env ctx.step 0 (env.planOut ctx.step).queries) := by
  rw [processIteration_ctx_eq]

/-- C8: evidence ordering is deterministic with respect to the plan. Within
one iteration the appended per-query groups appear in exactly the order of
the Planner's query list — the group for the `t`-th planned query carries
that query string — and each group's results appear in the Search Provider's
returned order for that query. Completion order of the concurrent calls is
not an input of the reassembly, which zips against the original query list. -/
theorem evidence_ordering_deterministic (env : Env) (ctx : SystemContext) :
    (processIteration env ctx).ctx.searchHistory.take ctx.searchHistory.length
        = ctx.searchHistory
    ∧ ((processIteration env ctx).ctx.searchHistory.drop
          ctx.searchHistory.length).length
        = (env.planOut ctx.step).queries.length
    ∧ ((processIteration env ctx).ctx.searchHistory.drop
          ctx.searchHistory.length).map
          (fun g => (g.query, g.results.map entryMeta))
        = ((env.planOut ctx.step).queries.zip
            (List.range' 0 (env.planOut ctx.step).queries.length)).map
            (fun p => (p.1.query,
              (env.searchOut ctx.step p.2).map serperMeta)) := by
  have hsh := processIteration_searchHistory env ctx
  refine ⟨by rw [hsh, List.take_left], ?_, ?_⟩
  · rw [hsh, List.drop_left, processQueries_length, gatherSearches_length]
  · rw [hsh, List.drop_left, processQueries_gather_meta]
    apply List.map_congr_left
    intro p _
    rw [searchWeb_meta]

/-- A pushed source keeps the result's URL in either branch of the favicon
construction. -/
theorem mkSource_url (p : String → Option String) (r : RawSearchResult) :
    (mkSource p r).url = r.link := by
  unfold mkSource
  split <;> rfl

/-- Unfolding equation of the deduplication walk on a cons cell. -/
theorem collectSourcesAux_cons (p : String → Option String)
    (seen : List String) (r : RawSearchResult) (rs : List RawSearchResult) :
    collectSourcesAux p seen (r :: rs)
      = if seen.contains r.link then collectSourcesAux p seen rs
        else mkSource p r :: collectSourcesAux p (r.link :: seen) rs := rfl

/-- A negative containment test, in the form `if_neg` expects. -/
theorem contains_false_neg {l : List String} {x : String}
    (h : l.contains x = false) : ¬(l.contains x = true) := by
  rw [h]
  simp

/-- Every source produced by the deduplication walk has a URL outside the
incoming seen set and is built, by `mkSource`, from the first result of the
remaining list that carries its URL. -/
theorem collectSourcesAux_spec (p : String → Option String) :
    ∀ (rs : List RawSearchResult) (seen : List String) (s : SearchSource),
      s ∈ collectSourcesAux p seen rs →
        s.url ∉ seen
        ∧ ∃ r, rs.find? (fun r => r.link == s.url) = some r
            ∧ s = mkSource p r := by
  intro rs
  induction rs with
  | nil => intro seen s hs; cases hs
  | cons r rest ih =>
    intro seen s hs
    rw [collectSourcesAux_cons] at hs
    cases hc : seen.contains r.link with
    | true =>
      rw [if_pos hc] at hs
      obtain ⟨hnot, r', hfind, hsrc⟩ := ih seen s hs
      have hlink : r.link ∈ seen := by simpa using hc
      refine ⟨hnot, r', ?_, hsrc⟩
      rw [List.find?_cons_of_neg _ ?_]
      · exact hfind
      · simp only [beq_iff_eq]
        intro heq
        exact hnot (heq ▸ hlink)
    | false =>
      rw [if_neg (contains_false_neg hc)] at hs
      rcases List.mem_cons.mp hs with hs | hs
      · subst hs
        have hnot : (mkSource p r).url ∉ seen := by
          rw [mkSource_url]
          intro hmem
          have : seen.contains r.link = true := by simpa using hmem
          rw [hc] at this
          cases this
        refine ⟨hnot, r, ?_, rfl⟩
        rw [List.find?_cons_of_pos]
        simp [mkSource_url]
      · obtain ⟨hnot, r', hfind, hsrc⟩ := ih (r.link :: seen) s hs
        have hne : s.url ≠ r.link := by
          intro h
          exact hnot (h ▸ List.mem_cons_self _ _)
        refine ⟨fun h => hnot (List.mem_cons_of_mem _ h), r', ?_, hsrc⟩
        rw [List.find?_cons_of_neg _ ?_]
        · exact hfind
        · simp only [beq_iff_eq]
          exact fun h => hne h.symm

/-- The deduplicated source list has pairwise distinct URLs. -/
theorem collectSourcesAux_nodup (p : String → Option String) :
    ∀ (rs : List RawSearchResult) (seen : List String),
      ((collectSourcesAux p seen rs).map SearchSource.url).Nodup := by
  intro rs
  induction rs with
  | nil => intro seen; simp [collectSourcesAux]
  | cons r rest ih =>
    intro seen
    cases hc : seen.contains r.link with
    | true =>
      rw [collectSourcesAux_cons, if_pos hc]
      exact ih seen
    | false =>
      rw [collectSourcesAux_cons, if_neg (contains_false_neg hc)]
      simp only [List.map_cons, List.nodup_cons]
      refine ⟨?_, ih (r.link :: seen)⟩
      rw [mkSource_url]
      intro hmem
      obtain ⟨s, hsmem, hsurl⟩ := List.mem_map.mp hmem
      exact (collectSourcesAux_spec p rest (r.link :: seen) s hsmem).1
        (hsurl ▸ List.mem_cons_self _ _)

/-- The URLs of the deduplicated source list are exactly the distinct result
links outside the incoming seen set. -/
theorem collectSourcesAux_urlFinset (p : String → Option String) :
    ∀ (rs : List RawSearchResult) (seen : List String),
      ((collectSourcesAux p seen rs).map SearchSource.url).toFinset
        = (rs.map RawSearchResult.link).toFinset \ seen.toFinset := by
  intro rs
  induction rs with
  | nil => intro seen; simp [collectSourcesAux]
  | cons r rest ih =>
    intro seen
    cases hc : seen.contains r.link with
    | true =>
      rw [collectSourcesAux_cons, if_pos hc, ih seen]
      have hrl : r.link ∈ seen := by simpa using hc
      ext x
      simp only [Finset.mem_sdiff, List.mem_toFinset, List.map_cons,
        List.mem_cons]
      constructor
      · rintro ⟨hx, hnx⟩
        exact ⟨Or.inr hx, hnx⟩
      · rintro ⟨hx | hx, hnx⟩
        · exact absurd (hx ▸ hrl) hnx
        · exact ⟨hx, hnx⟩
    | false =>
      rw [collectSourcesAux_cons, if_neg (contains_false_neg hc)]
      have hrl : r.link ∉ seen := by
        intro h
        have : seen.contains r.link = true := by simpa using h
        rw [hc] at this
        cases this
      simp only [List.map_cons, mkSource_url, List.toFinset_cons,
        ih (r.link :: seen)]
      ext x
      simp only [List.toFinset_cons, Finset.mem_insert, Finset.mem_sdiff,
        List.mem_toFinset, List.mem_cons]
      constructor
      · rintro (hx | ⟨hx, hnx⟩)
        · subst hx
          exact ⟨Or.inl rfl, hrl⟩
        · exact ⟨Or.inr hx, fun h => hnx (Or.inr h)⟩
      · rintro ⟨hx | hx, hnx⟩
        · exact Or.inl hx
        · by_cases hxr : x = r.link
          · exact Or.inl hxr
          · exact Or.inr ⟨hx, fun h => h.elim hxr hnx⟩

/-- No result is dropped by the deduplication walk: every result's link is
in the incoming seen set or among the produced URLs. -/
theorem collectSourcesAux_covers (p : String → Option String) :
    ∀ (rs : List RawSearchResult) (seen : List String) (r : RawSearchResult),
      r ∈ rs →
        r.link ∈ seen
        ∨ r.link ∈ (collectSourcesAux p seen rs).map SearchSource.url := by
  intro rs
  induction rs with
  | nil => intro seen r hr; cases hr
  | cons r0 rest ih =>
    intro seen r hr
    rcases List.mem_cons.mp hr with hr | hr
    · subst hr
      cases hc : seen.contains r.link with
      | true => exact Or.inl (by simpa using hc)
      | false =>
        right
        rw [collectSourcesAux_cons, if_neg (contains_false_neg hc)]
        simp only [List.map_cons, mkSource_url]
        exact List.mem_cons_self _ _
    · cases hc : seen.contains r0.link with
      | true =>
        rcases ih seen r hr with hin | hout
        · exact Or.inl hin
        · right
          rw [collectSourcesAux_cons, if_pos hc]
          exact hout
      | false =>
        rcases ih (r0.link :: seen) r hr with hin | hout
        · rcases List.mem_cons.mp hin with heq | hin2
          · right
            rw [collectSourcesAux_cons, if_neg (contains_false_neg hc)]
            simp only [List.map_cons, mkSource_url]
            exact heq ▸ List.mem_cons_self _ _
          · exact Or.inl hin2
        · right
          rw [collectSourcesAux_cons, if_neg (contains_false_neg hc)]
          simp only [List.map_cons]
          exact List.mem_cons_of_mem _ hout

/-- The observations of one loop body run: the query plan, the source list
when non-empty, and the chosen action, in that order. -/
theorem processIteration_observations (env : Env) (ctx : SystemContext) :
    (processIteration env ctx).observations
      = [Observation.queryPlanObs (env.planOut ctx.step).plan
            (env.planOut ctx.step).queries]
        ++ (if (collectSources env.parseHost
              (gatherSearches env ctx.step 0
                (env.planOut ctx.step).queries)).isEmpty then []
            else [Observation.searchSourcesObs
              (collectSources env.parseHost
                (gatherSearches env ctx.step 0
                  (env.planOut ctx.step).queries))])
        ++ [Observation.newActionObs (env.decideOut ctx.step)] := rfl

/-- A source list with pairwise distinct URLs mentions any given URL at
most once. -/
theorem countP_url_le_one (l : List SearchSource)
    (h : (l.map SearchSource.url).Nodup) (u : String) :
    l.countP (fun s => s.url == u) ≤ 1 := by
  have h1 : (l.map SearchSource.url).count u ≤ 1 :=
    List.nodup_iff_count_le_one.mp h u
  rw [List.count_eq_countP, List.countP_map] at h1
  exact h1

/-- C5: source collection deduplicates by exact URL match in first-seen
order over the query-ordered result lists. The produced list has pairwise
distinct URLs, its length is the number of distinct URLs, each source is
built from the first occurrence of its URL (`mkSource` keeps that
occurrence's title, snippet and favicon), re-running the collection on the
same input yields the same list (collection is a pure function of its
input), and the SEARCH_SOURCES observation is emitted if and only if the
collected list is non-empty — and always carries exactly that list. -/
theorem source_dedup_spec (parseHost : String → Option String)
    (gs : List (String × List RawSearchResult)) (env : Env)
    (ctx : SystemContext) :
    ((collectSources parseHost gs).map SearchSource.url).Nodup
    ∧ (collectSources parseHost gs).length
        = ((gs.flatMap Prod.snd).map RawSearchResult.link).toFinset.card
    ∧ (∀ s ∈ collectSources parseHost gs,
        ∃ r, (gs.flatMap Prod.snd).find? (fun r => r.link == s.url) = some r
          ∧ s = mkSource parseHost r)
    ∧ collectSources parseHost gs = collectSources parseHost gs
    ∧ ((∃ ss, Observation.searchSourcesObs ss
            ∈ (processIteration env ctx).observations)
        ↔ collectSources env.parseHost
            (gatherSearches env ctx.step 0 (env.planOut ctx.step).queries)
            ≠ [])
    ∧ (∀ ss, Observation.searchSourcesObs ss
          ∈ (processIteration env ctx).observations →
        ss = collectSources env.parseHost
            (gatherSearches env ctx.step 0 (env.planOut ctx.step).queries)) := by
  have hnd : ((collectSources parseHost gs).map SearchSource.url).Nodup :=
    collectSourcesAux_nodup parseHost (gs.flatMap Prod.snd) []
  refine ⟨hnd, ?_, ?_, rfl, ?_, ?_⟩
  · have hfin := collectSourcesAux_urlFinset parseHost (gs.flatMap Prod.snd) []
    calc (collectSources parseHost gs).length
        = ((collectSources parseHost gs).map SearchSource.url).length := by
          rw [List.length_map]
      _ = ((collectSources parseHost gs).map SearchSource.url).toFinset.card :=
          (List.toFinset_card_of_nodup hnd).symm
      _ = ((gs.flatMap Prod.snd).map RawSearchResult.link).toFinset.card := by
          rw [show (collectSources parseHost gs).map SearchSource.url
              = (collectSourcesAux parseHost [] (gs.flatMap Prod.snd)).map
                  SearchSource.url from rfl, hfin]
          simp
  · intro s hs
    exact (collectSourcesAux_spec parseHost (gs.flatMap Prod.snd) [] s hs).2
  · rw [processIteration_observations]
    cases hL : (collectSources env.parseHost
        (gatherSearches env ctx.step 0 (env.planOut ctx.step).queries)).isEmpty with
    | true =>
      rw [if_pos rfl]
      constructor
      · rintro ⟨ss, hss⟩
        simp at hss
      · intro hne
        exact absurd (List.isEmpty_iff.mp hL) hne
    | false =>
      rw [if_neg (by simp)]
      constructor
      · intro _
        intro hnil
        rw [hnil] at hL
        cases hL
      · intro _
        exact ⟨collectSources env.parseHost
          (gatherSearches env ctx.step 0 (env.planOut ctx.step).queries),
          by simp⟩
  · intro ss hss
    rw [processIteration_observations] at hss
    cases hL : (collectSources env.parseHost
        (gatherSearches env ctx.step 0 (env.planOut ctx.step).queries)).isEmpty with
    | true =>
      rw [hL] at hss
      simp at hss
    | false =>
      rw [hL] at hss
      simp at hss
      exact hss

/-- C9: a search result whose link cannot be parsed as a URL is never
dropped from the deduplicated source list — every first-seen link appears
among the produced URLs, an unparseable link is pushed with its title, url
and snippet but no favicon, and every parseable link gets the Google
favicon URL derived from its hostname. -/
theorem unparseable_link_kept (parseHost : String → Option String)
    (gs : List (String × List RawSearchResult)) :
    (∀ r ∈ gs.flatMap Prod.snd,
        r.link ∈ (collectSources parseHost gs).map SearchSource.url)
    ∧ (∀ s ∈ collectSources parseHost gs,
        s.favicon = (parseHost s.url).map mkFaviconUrl)
    ∧ (∀ r : RawSearchResult, parseHost r.link = none →
        mkSource parseHost r = ⟨r.title, r.link, r.snippet, none⟩)
    ∧ (∀ (r : RawSearchResult) (h : String), parseHost r.link = some h →
        mkSource parseHost r
          = ⟨r.title, r.link, r.snippet, some (mkFaviconUrl h)⟩) := by
  refine ⟨?_, ?_, ?_, ?_⟩
  · intro r hr
    rcases collectSourcesAux_covers parseHost (gs.flatMap Prod.snd) [] r hr with
      hin | hout
    · cases hin
    · exact hout
  · intro s hs
    obtain ⟨-, r, -, hsrc⟩ :=
      collectSourcesAux_spec parseHost (gs.flatMap Prod.snd) [] s hs
    subst hsrc
    rw [mkSource_url]
    unfold mkSource
    cases hp : parseHost r.link with
    | none => simp
    | some h => simp
  · intro r hp
    unfold mkSource
    rw [hp]
  · intro r h hp
    unfold mkSource
    rw [hp]

/-- URL of a produced evidence entry is the result's link. -/
theorem processSearchResult_url (now : String) (scr : List ScrapeUrlResult)
    (summ : Except SummarizeError String) (sr : RawSearchResult) :
    (processSearchResult now scr summ sr).url = sr.link :=
  congrArg (fun t => t.2.1) (processSearchResult_meta now scr summ sr)

/-- The per-query fan-out preserves the per-URL entry count. -/
theorem processResults_countP (now : String) (scr : List ScrapeUrlResult)
    (summs : Nat → Except SummarizeError String) (u : String) :
    ∀ (j : Nat) (rs : List RawSearchResult),
      (processResults now scr summs j rs).countP (fun r => r.url == u)
        = rs.countP (fun r => r.link == u) := by
  intro j rs
  induction rs generalizing j with
  | nil => rfl
  | cons sr rest ih =>
    simp only [processResults, List.countP_cons, ih, processSearchResult_url]

/-- The scrape-and-summarize fan-out preserves the total per-URL entry
count over all groups. -/
theorem processQueries_countP (env : Env) (step : Nat) (u : String) :
    ∀ (i0 : Nat) (gs : List (String × List RawSearchResult)),
      ((processQueries env step i0 gs).map
          (fun g => g.results.countP (fun r => r.url == u))).sum
        = (gs.map (fun p => p.2.countP (fun r => r.link == u))).sum := by
  intro i0 gs
  induction gs generalizing i0 with
  | nil => rfl
  | cons p rest ih =>
    simp only [processQueries, List.map_cons, List.sum_cons, ih,
      processResults_countP]

/-- C10: URL deduplication applies only to the emitted SEARCH_SOURCES
observation, not to the evidence store. The store receives one entry per
(query, search result) pair — the per-URL entry count grows by the total
occurrence count of that URL across all per-query result lists, so a URL
returned by several queries is stored once per query — while the collected
source list mentions any URL at most once. -/
theorem store_not_deduplicated (env : Env) (ctx : SystemContext)
    (u : String) :
    ((processIteration env ctx).ctx.searchHistory.map
        (fun g => g.results.countP (fun r => r.url == u))).sum
      = (ctx.searchHistory.map
          (fun g => g.results.countP (fun r => r.url == u))).sum
        + ((gatherSearches env ctx.step 0 (env.planOut ctx.step).queries).map
            (fun p => p.2.countP (fun r => r.link == u))).sum
    ∧ (collectSources env.parseHost
          (gatherSearches env ctx.step 0 (env.planOut ctx.step).queries)).countP
          (fun s => s.url == u) ≤ 1 := by
  constructor
  · rw [processIteration_searchHistory, List.map_append, List.sum_append,
      processQueries_countP]
  · exact countP_url_le_one _
      (collectSourcesAux_nodup env.parseHost _ []) u

/-- Witness for C5 at a concrete result set where the URL "u1" is returned
by two different queries: the collected source keeps the first occurrence's
metadata. -/
theorem source_dedup_spec_witness :
    ((⟨"t1", "u1", "s1", none⟩ : SearchSource)
        ∈ collectSources (fun _ => none)
            ([("q1", [⟨"t1", "u1", "s1", none⟩, ⟨"t2", "u2", "s2", none⟩]),
              ("q2", [⟨"t3", "u1", "s3", none⟩])] :
              List (String × List RawSearchResult)))
    ∧ ∃ r, (([("q1", [⟨"t1", "u1", "s1", none⟩, ⟨"t2", "u2", "s2", none⟩]),
              ("q2", [⟨"t3", "u1", "s3", none⟩])] :
              List (String × List RawSearchResult)).flatMap Prod.snd).find?
            (fun r => r.link == (⟨"t1", "u1", "s1", none⟩ : SearchSource).url)
          = some r
        ∧ (⟨"t1", "u1", "s1", none⟩ : SearchSource)
            = mkSource (fun _ => none) r :=
  ⟨by decide,
    (source_dedup_spec (fun _ => none)
        ([("q1", [⟨"t1", "u1", "s1", none⟩, ⟨"t2", "u2", "s2", none⟩]),
          ("q2", [⟨"t3", "u1", "s3", none⟩])] :
          List (String × List RawSearchResult)) envAllCont ctx0).2.2.1
      ⟨"t1", "u1", "s1", none⟩ (by decide)⟩

/-- Witness for C9 at a concrete result whose link does not parse: it still
appears among the produced source URLs and carries no favicon. -/
theorem unparseable_link_kept_witness :
    ((⟨"tA", "bad url", "sA", none⟩ : RawSearchResult)
        ∈ (([("q", [⟨"tA", "bad url", "sA", none⟩])] :
            List (String × List RawSearchResult)).flatMap Prod.snd))
    ∧ (⟨"tA", "bad url", "sA", none⟩ : RawSearchResult).link
        ∈ (collectSources (fun _ => none)
            ([("q", [⟨"tA", "bad url", "sA", none⟩])] :
              List (String × List RawSearchResult))).map SearchSource.url
    ∧ ((⟨"tA", "bad url", "sA", none⟩ : SearchSource)
          ∈ collectSources (fun _ => none)
            ([("q", [⟨"tA", "bad url", "sA", none⟩])] :
              List (String × List RawSearchResult)))
    ∧ (⟨"tA", "bad url", "sA", none⟩ : SearchSource).favicon
        = ((fun (_ : String) => (none : Option String))
            (⟨"tA", "bad url", "sA", none⟩ : SearchSource).url).map
            mkFaviconUrl :=
  ⟨by decide,
    (unparseable_link_kept (fun _ => none)
        ([("q", [⟨"tA", "bad url", "sA", none⟩])] :
          List (String × List RawSearchResult))).1
      ⟨"tA", "bad url", "sA", none⟩ (by decide),
    by decide,
    (unparseable_link_kept (fun _ => none)
        ([("q", [⟨"tA", "bad url", "sA", none⟩])] :
          List (String × List RawSearchResult))).2.1
      ⟨"tA", "bad url", "sA", none⟩ (by decide)⟩

/-- A string contains the middle part of a doubly nested append. -/
theorem strContains_app_app (y i p t : String) :
    strContains ((y ++ (i ++ p)) ++ t) p = true := by
  apply decide_eq_true
  refine ⟨(y ++ i).data, t.data, ?_⟩
  simp [String.data_append, List.append_assoc]

/-- C6: feedback persistence. After an iteration whose decision carries a
(truthy) feedback string F, the store passed to the next Planner invocation
exposes F as the latest feedback and the query rewriter's prompt contains F
in its evaluator-feedback section; a later iteration whose decision carries
no feedback leaves F in place; and the feedback setter touches no other
evidence-store field. -/
theorem feedback_persistence (env env2 : Env) (ctx : SystemContext)
    (F : String) (hF : F ≠ "")
    (hact : (processIteration env ctx).action.type = ActionType.cont)
    (hfb : (processIteration env ctx).action.feedback = some F) :
    ((processIteration env ctx).ctx.incrementStep).getLatestFeedback = some F
    ∧ feedbackSection ((processIteration env ctx).ctx.incrementStep)
        = "The evaluator provided this feedback on what information is missing or needs improvement:\n\n"
            ++ F
    ∧ strContains
        (queryRewriterPrompt ((processIteration env ctx).ctx.incrementStep)) F
        = true
    ∧ ((processIteration env2
          ((processIteration env ctx).ctx.incrementStep)).action.feedback = none →
        (processIteration env2
          ((processIteration env ctx).ctx.incrementStep)).ctx.latestFeedback
          = some F)
    ∧ (∀ (c : SystemContext) (f : String),
        (c.setLatestFeedback f).messages = c.messages
        ∧ (c.setLatestFeedback f).step = c.step
        ∧ (c.setLatestFeedback f).searchHistory = c.searchHistory
        ∧ (c.setLatestFeedback f).requestHints = c.requestHints
        ∧ (c.setLatestFeedback f).usageLog = c.usageLog) := by
  have hdec : (env.decideOut ctx.step).feedback = some F := by
    rw [← processIteration_action env ctx]
    exact hfb
  have htruthy : jsTruthy (env.decideOut ctx.step).feedback = true := by
    rw [hdec]
    simp [jsTruthy, hF]
  have hlf : (processIteration env ctx).ctx.latestFeedback = some F := by
    rw [processIteration_ctx_eq]
    simp only [hdec]
    rw [if_pos (by simp [jsTruthy, hF])]
    rfl
  have hlf1 : ((processIteration env ctx).ctx.incrementStep).latestFeedback
      = some F := hlf
  have hget : ((processIteration env ctx).ctx.incrementStep).getLatestFeedback
      = some F := hlf
  have hsec : feedbackSection ((processIteration env ctx).ctx.incrementStep)
      = "The evaluator provided this feedback on what information is missing or needs improvement:\n\n"
          ++ F := by
    unfold feedbackSection
    rw [show ((processIteration env ctx).ctx.incrementStep).getLatestFeedback
        = some F from hget]
    rw [if_pos (by simp [jsTruthy, hF])]
    rfl
  refine ⟨hget, hsec, ?_, ?_, ?_⟩
  · unfold queryRewriterPrompt
    rw [hsec]
    exact strContains_app_app _ _ _ _
  · intro hnone
    have hdec2 : (env2.decideOut
        ((processIteration env ctx).ctx.incrementStep).step).feedback
        = none := by
      rw [← processIteration_action env2
        ((processIteration env ctx).ctx.incrementStep)]
      exact hnone
    rw [processIteration_ctx_eq]
    simp only [hdec2]
    rw [if_neg (by simp [jsTruthy])]
    exact hlf1
  · intro c f
    exact ⟨rfl, rfl, rfl, rfl, rfl⟩

/-- Witness for C6 at a concrete environment whose decision is `Continue`
with the feedback "need 2025 pricing data", followed by an environment whose
decision carries no feedback: the stored feedback survives both. -/
theorem feedback_persistence_witness :
    ("need 2025 pricing data" ≠ "")
    ∧ (processIteration envFeedbackF ctx0).action.type = ActionType.cont
    ∧ (processIteration envFeedbackF ctx0).action.feedback
        = some "need 2025 pricing data"
    ∧ ((processIteration envFeedbackF ctx0).ctx.incrementStep).getLatestFeedback
        = some "need 2025 pricing data"
    ∧ (processIteration envAllCont
        ((processIteration envFeedbackF ctx0).ctx.incrementStep)).action.feedback
        = none
    ∧ (processIteration envAllCont
        ((processIteration envFeedbackF ctx0).ctx.incrementStep)).ctx.latestFeedback
        = some "need 2025 pricing data" :=
  ⟨by decide, by decide, by decide,
    (feedback_persistence envFeedbackF envAllCont ctx0 "need 2025 pricing data"
      (by decide) (by decide) (by decide)).1,
    by decide,
    (feedback_persistence envFeedbackF envAllCont ctx0 "need 2025 pricing data"
      (by decide) (by decide) (by decide)).2.2.2.1 (by decide)⟩

/-- C7: every value admitted by the Action Selector's output schema is a
continue/answer action carrying a reasoning string, and a continue value
always carries a feedback string (feedback is optional for answer values). -/
theorem action_schema_shape (v : RawActionValue)
    (h : actionSchemaAdmits v = true) :
    (v.typeStr = "continue" ∨ v.typeStr = "answer")
    ∧ v.reasoning.isSome = true
    ∧ (v.typeStr = "continue" → v.feedback.isSome = true) := by
  unfold actionSchemaAdmits at h
  rw [Bool.and_eq_true, Bool.and_eq_true] at h
  obtain ⟨⟨hr, ht⟩, hf⟩ := h
  refine ⟨?_, hr, ?_⟩
  · rcases Bool.or_eq_true_iff.mp ht with h1 | h2
    · exact Or.inl (by simpa using h1)
    · exact Or.inr (by simpa using h2)
  · intro hc
    rcases Bool.or_eq_true_iff.mp hf with h1 | h2
    · rw [hc] at h1
      simp at h1
    · exact h2

/-- Witness for C7 at a concrete admitted value of type continue. -/
theorem action_schema_shape_witness :
    actionSchemaAdmits ⟨some "gaps remain", "continue", some "missing X"⟩
        = true
    ∧ ((⟨some "gaps remain", "continue", some "missing X"⟩ :
          RawActionValue).typeStr = "continue"
        → (⟨some "gaps remain", "continue", some "missing X"⟩ :
            RawActionValue).feedback.isSome = true) :=
  ⟨by decide,
    (action_schema_shape ⟨some "gaps remain", "continue", some "missing X"⟩
      (by decide)).2.2⟩

end AgentLoop
